import Mathlib

/-!
Verification development for the WebReasearcher repository.

The repository contains two parallel implementations of the iterative
retrieval-and-verification engine:
* `Self_Improving_Search.py` (`EnhancedSelfImprovingSearch`), wrapped by the
  `AsyncSearchEngine` subclass in `api/main.py`, and
* `api/search_engine_manager.py` (`AsyncSearchEngine`), used by
  `api/session_manager.py`.

Both are embedded below.  External collaborators (the language model, the
search provider, the page fetcher and the robots-policy checker) are modelled
as oracle parameters: functions supplying the values the collaborator would
return.  Machine integers are `Nat` (no overflow is possible in the modelled
code paths: all arithmetic is small and non-negative).

String manipulation is implemented structurally over `List Char` (wrapped
back into `String` at the interfaces) so that every definition evaluates
inside the kernel; each helper mirrors the Python string idiom named in its
doc comment.
-/

/-- Python `str.strip()` on the left: drop leading whitespace characters. -/
def trimLeftChars (l : List Char) : List Char := l.dropWhile Char.isWhitespace

/-- Python `str.strip()`: drop leading and trailing whitespace characters. -/
def trimChars (l : List Char) : List Char :=
  ((trimLeftChars l).reverse.dropWhile Char.isWhitespace).reverse

/-- Python `str.strip()` as a `String` transformer. -/
def pyStrip (s : String) : String := String.mk (trimChars s.toList)

/-- Python `str.split('\n')`: split a character list on newline characters. -/
def splitLinesChars : List Char → List (List Char)
  | [] => [[]]
  | c :: cs =>
    if c = '\n' then [] :: splitLinesChars cs
    else match splitLinesChars cs with
      | [] => [[c]]
      | line :: rest => (c :: line) :: rest

/-- The lines of `response.strip().split('\n')`, as `String`s. -/
def pyStripLines (response : String) : List String :=
  (splitLinesChars (trimChars response.toList)).map String.mk

/-- Python `str.startswith(pat)` over character lists. -/
def startsWithChars : List Char → List Char → Bool
  | [], _ => true
  | _ :: _, [] => false
  | p :: ps, c :: cs => p = c && startsWithChars ps cs

/-- Python `line.startswith(pat)` for `String`s. -/
def pyStartsWith (line pat : String) : Bool :=
  startsWithChars pat.toList line.toList

/-- Everything after the first colon of a character list (empty if the list
has no colon). -/
def afterFirstColon : List Char → List Char
  | [] => []
  | c :: cs => if c = ':' then cs else afterFirstColon cs

/-- Splits a line at the first colon and returns the trimmed remainder,
mirroring the Python idiom `line.split(':', 1)[1].strip()` used throughout
the repository's response parsers.  Total: returns `""` when no colon is
present (the callers only apply it to lines that start with a label ending
in a colon). -/
def splitColonTail (line : String) : String :=
  String.mk (trimChars (afterFirstColon line.toList))

/-- Python `str.lower()` (ASCII case folding, as in the repository's use). -/
def pyLower (s : String) : String := String.mk (s.toList.map Char.toLower)

/-- Embeds `EnhancedSelfImprovingSearch.parse_evaluation_response`
(Self_Improving_Search.py, lines 195-203): scan the lines of the reply,
recording the text after `Evaluation:` and the lowercased text after
`Decision:`; later occurrences overwrite earlier ones; both default to the
empty string. -/
def parse_evaluation_response (response : String) : String × String :=
  (pyStripLines response).foldl
    (fun acc line =>
      if pyStartsWith line "Evaluation:" then (splitColonTail line, acc.2)
      else if pyStartsWith line "Decision:" then (acc.1, pyLower (splitColonTail line))
      else acc)
    ("", "")

/-- Embeds `EnhancedSelfImprovingSearch.evaluate_scraped_content`
(Self_Improving_Search.py, lines 164-193): up to 3 model replies (the list
argument) are parsed in turn; the first reply whose decision is `answer` or
`refine` is returned; if none qualifies the stage returns the fixed failure
text with decision `refine`.  The model replies are supplied as a list (the
oracle for the `llm.generate` collaborator). -/
def evaluate_scraped_content : List String → String × String
  | [] => ("Failed to evaluate content.", "refine")
  | reply :: rest =>
    let parsed := parse_evaluation_response reply
    if parsed.2 = "answer" ∨ parsed.2 = "refine" then parsed
    else evaluate_scraped_content rest

/-- Embeds `AsyncSearchEngine.evaluate_content`
(api/search_engine_manager.py, lines 372-422): a single model reply is
parsed; `decision` starts as `"refine"` and is overwritten by the lowercased
text of any `Decision:` line, with no validation and no retry. -/
def manager_evaluate_content (response : String) : String × String :=
  (pyStripLines response).foldl
    (fun acc line =>
      if pyStartsWith line "Evaluation:" then (splitColonTail line, acc.2)
      else if pyStartsWith line "Decision:" then (acc.1, pyLower (splitColonTail line))
      else acc)
    ("", "refine")


/-- One search-provider result as consumed by the page selector: the 1-based
rank number attached by `perform_search` (`{'number': i+1, **result}`) and
the result URL (`href`).  The title/snippet fields feed only prompt text and
are omitted. -/
structure SearchResult where
  number : Nat
  href : String
deriving DecidableEq

/-- Converts one maximal run of digit characters (most significant first)
to a number, as Python `int` does on a `\d+` match. -/
def digitsToNat (ds : List Char) : Nat :=
  ds.foldl (fun n c => n * 10 + (c.toNat - 48)) 0

/-- Helper for `findAllNats`: walks the characters accumulating the current
digit run (in reverse). -/
def findAllNatsAux : List Char → List Char → List Nat
  | [], acc => if acc.isEmpty then [] else [digitsToNat acc.reverse]
  | c :: cs, acc =>
    if c.isDigit then findAllNatsAux cs (c :: acc)
    else if acc.isEmpty then findAllNatsAux cs []
    else digitsToNat acc.reverse :: findAllNatsAux cs []

/-- Python `re.findall(r'\d+', line)` followed by `int(...)`: the maximal
digit runs of the line, in order, as numbers. -/
def findAllNats (s : String) : List Nat := findAllNatsAux s.toList []


/-- Embeds `EnhancedSelfImprovingSearch.parse_page_selection_response`
(Self_Improving_Search.py, lines 339-347): scan all lines, taking the
numbers on a `Selected Results:` line and the text after `Reasoning:`
(later occurrences overwrite earlier ones); returns `none` unless both were
found. -/
def parse_page_selection_response (response : String) : Option (List Nat × String) :=
  let parsed := (pyStripLines response).foldl
    (fun (acc : Option (List Nat) × Option String) line =>
      if pyStartsWith line "Selected Results:" then (some (findAllNats line), acc.2)
      else if pyStartsWith line "Reasoning:" then (acc.1, some (splitColonTail line))
      else acc)
    (none, none)
  match parsed with
  | (some nums, some reasoning) => some (nums, reasoning)
  | _ => none

/-- Embeds `EnhancedSelfImprovingSearch.validate_page_selection_response`
(Self_Improving_Search.py, lines 349-354): exactly two selected numbers,
each within `[1, num_results]`. -/
def validate_page_selection_response (nums : List Nat) (numResults : Nat) : Bool :=
  nums.length == 2 && nums.all (fun n => 1 ≤ n && n ≤ numResults)

/-- One iteration of the retry loop in
`EnhancedSelfImprovingSearch.select_relevant_pages`
(Self_Improving_Search.py, lines 316-333): parse the model reply, validate
it, map the selected numbers to URLs and keep the robots-policy-permitted
ones; `none` signals that this attempt failed (invalid reply, or every
selected URL disallowed) and the selection is retried. -/
def selection_attempt (canFetch : String → Bool) (results : List SearchResult)
    (reply : String) : Option (List String) :=
  match parse_page_selection_response reply with
  | some (nums, _) =>
    if validate_page_selection_response nums results.length then
      let selectedUrls := (results.filter (fun r => decide (r.number ∈ nums))).map (fun r => r.href)
      let allowedUrls := selectedUrls.filter canFetch
      if allowedUrls.isEmpty then none else some allowedUrls
    else none
  | none => none

/-- The deterministic fallback of `EnhancedSelfImprovingSearch.select_relevant_pages`
(Self_Improving_Search.py, line 336):
`[result['href'] for result in search_results if can_fetch(result['href'])][:2]`. -/
def selection_fallback (canFetch : String → Bool) (results : List SearchResult) : List String :=
  ((results.filter (fun r => canFetch r.href)).map (fun r => r.href)).take 2

/-- Embeds `EnhancedSelfImprovingSearch.select_relevant_pages`
(Self_Improving_Search.py, lines 297-337): up to 3 model replies (the list
argument, the oracle for `llm.generate`) are tried via `selection_attempt`;
when none succeeds the deterministic fallback is returned. -/
def select_relevant_pages (canFetch : String → Bool) (results : List SearchResult) :
    List String → List String
  | [] => selection_fallback canFetch results
  | reply :: rest =>
    match selection_attempt canFetch results reply with
    | some urls => urls
    | none => select_relevant_pages canFetch results rest

/-- First `Selected Results:` line wins (the manager's parse loop breaks at
the first match); no such line yields the empty number list. -/
def firstSelectedNums : List String → List Nat
  | [] => []
  | line :: rest =>
    if pyStartsWith line "Selected Results:" then findAllNats line
    else firstSelectedNums rest

/-- Embeds `AsyncSearchEngine.select_relevant_pages`
(api/search_engine_manager.py, lines 279-317): a single model reply; if its
`Selected Results:` line holds exactly two numbers (no range validation),
the matching URLs filtered by the robots policy are returned (possibly
empty); otherwise the fallback takes the top 2 results by rank and filters
them by the robots policy:
`[result['href'] for result in search_results[:2] if can_fetch(result['href'])]`. -/
def manager_select_relevant_pages (canFetch : String → Bool)
    (results : List SearchResult) (response : String) : List String :=
  let selectedNums := firstSelectedNums (pyStripLines response)
  if selectedNums.length == 2 then
    ((results.filter (fun r => decide (r.number ∈ selectedNums))).map (fun r => r.href)).filter canFetch
  else
    ((results.take 2).filter (fun r => canFetch r.href)).map (fun r => r.href)

/-- A progress event as queued for observers: the event type and the
human-readable text.  The timestamp and structured payload fields are
carried opaquely by the queues and play no role in the queueing logic, so
they are omitted from the embedding. -/
structure QueueMsg where
  type : String
  message : String
deriving DecidableEq

/-- Python `queue.Queue(maxsize=cap).put_nowait` followed by the
`except queue.Full: drop` handler of `AsyncMessageHandler.handle_message`
(api/main.py, lines 105-109): append when there is room, otherwise leave the
queue unchanged (the event is dropped) and continue. -/
def put_nowait_drop (cap : Nat) (q : List QueueMsg) (m : QueueMsg) : List QueueMsg :=
  if q.length < cap then q ++ [m] else q

/-- Python `queue.Queue(maxsize=cap).put` (blocking): `none` means the call
does not return (the producer blocks until an observer drains the queue). -/
def blockingPut (cap : Nat) (q : List QueueMsg) (m : QueueMsg) : Option (List QueueMsg) :=
  if q.length < cap then some (q ++ [m]) else none

/-- The mutable state of `AsyncMessageHandler` (api/main.py, lines 75-119):
its bounded message queue, the last message accepted (for duplicate
suppression) and the stop event. -/
structure HandlerState where
  queue : List QueueMsg
  lastMessage : Option QueueMsg
  stopSet : Bool
deriving DecidableEq

/-- The duplicate test of `AsyncMessageHandler.handle_message`
(api/main.py, lines 97-99): same type and same message text as the last
accepted message. -/
def dupCheck : Option QueueMsg → QueueMsg → Bool
  | some lm, m => m.type == lm.type && m.message == lm.message
  | none, _ => false

/-- Embeds `AsyncMessageHandler.handle_message` (api/main.py, lines 86-113):
ignore messages after stop; strip the text and drop empty messages; skip a
message equal (type and text) to the last accepted one; otherwise record it
as last and try a non-blocking put, dropping the event when the bounded
queue is full.  The function is total: the producer never blocks. -/
def handle_message (cap : Nat) (st : HandlerState) (msg : QueueMsg) : HandlerState :=
  if st.stopSet then st
  else
    let m : QueueMsg := { msg with message := pyStrip msg.message }
    if m.message = "" then st
    else if dupCheck st.lastMessage m then st
    else { st with lastMessage := some m, queue := put_nowait_drop cap st.queue m }

/-- Embeds `WebSocketMessageHandler.send_progress_update`
(api/search_engine_manager.py, lines 141-177): unconditionally `put` a
`progress` event on the session queue — a blocking put, with no duplicate
suppression (the analysis-step bookkeeping and the structured payload are
omitted; the queues handed to this handler are the
`queue.Queue(maxsize=1000)` objects created by `WebSocketManager`). -/
def manager_send_progress_update (cap : Nat) (q : List QueueMsg)
    (message : String) : Option (List QueueMsg) :=
  blockingPut cap q { type := "progress", message := message }

/-- One drain iteration of the broadcaster when no observer is attached
(`process_messages`, api/main.py lines 139-159 and
api/websocket_manager.py lines 128-156): `get_nowait` the front message and
`put` it back at the tail of the queue. -/
def requeueStep {α : Type} : List α → List α
  | [] => []
  | m :: rest => rest ++ [m]

/-- The queue after `k` observer-less drain iterations; once an observer
attaches the broadcaster delivers the queue front-to-back, so this list is
also the delivery order. -/
def scenarioD_delivered {α : Type} (events : List α) (k : Nat) : List α :=
  requeueStep^[k] events

/-- A research session record as stored in `research_sessions` by
`begin_research` (api/main.py, lines 442-448; the `search_engine` object
itself is omitted). -/
structure SessionRec where
  query : String
  mode : String
  status : String
deriving DecidableEq

/-- Association-list lookup, modelling Python `dict` access `d[k]` guarded
by `k in d`. -/
def alistGet {α : Type} (l : List (String × α)) (k : String) : Option α :=
  (l.find? (fun p => p.1 == k)).map (fun p => p.2)

/-- Association-list update, modelling Python `d[k] = v`: replace the value
in place when the key exists, append otherwise. -/
def alistSet {α : Type} : List (String × α) → String → α → List (String × α)
  | [], k, v => [(k, v)]
  | p :: rest, k, v =>
    if p.1 == k then (k, v) :: rest else p :: alistSet rest k v

/-- The process-wide mutable registries consulted by `begin_research`
(api/main.py, lines 53-59): observer channels per session, the session
registry, and the sessions whose research worker has been submitted. -/
structure AppState where
  active_connections : List (String × List Nat)
  research_sessions : List (String × SessionRec)
  active_tasks : List String
deriving DecidableEq

/-- Embeds the `begin_research` endpoint (api/main.py, lines 422-468): if
the session has no observer channel (`session_id not in active_connections
or not active_connections[session_id]`) it fails with HTTP 400 and changes
nothing; otherwise it stores the session with status `"starting"`, submits
the research worker (recorded in `active_tasks`) and returns response
status `"started"`. -/
def begin_research (st : AppState) (sid q mode : String) :
    Except Nat String × AppState :=
  match alistGet st.active_connections sid with
  | none => (Except.error 400, st)
  | some conns =>
    if conns.isEmpty then (Except.error 400, st)
    else
      (Except.ok "started",
       { st with
         research_sessions :=
           alistSet st.research_sessions sid ⟨q, mode, "starting"⟩,
         active_tasks := st.active_tasks ++ [sid] })

/-- Python substring containment `pat in s` over character lists. -/
def containsSub (pat : List Char) : List Char → Bool
  | [] => pat.isEmpty
  | c :: cs => startsWithChars pat (c :: cs) || containsSub pat cs

/-- The reliability heuristic recorded by `AsyncSearchEngine.scrape_content`
(api/search_engine_manager.py, lines 346-363) for a successfully scraped
page: base 50, length bonus 20 (text longer than 1000 characters) or 10,
citation bonus 20 (`"http"` occurs in the lowercased text), format bonus 10
(more than 5 newlines), capped at 100. -/
def scrape_reliability (content : String) : Nat :=
  let contentLength := content.length
  let hasCitations := containsSub "http".toList (pyLower content).toList
  let wellFormatted := content.toList.count '\n' > 5
  min 100 (50 + (if contentLength > 1000 then 20 else 10) +
    (if hasCitations then 20 else 0) + (if wellFormatted then 10 else 0))

/-- Embeds `AsyncSearchEngine._calculate_content_confidence`
(api/search_engine_manager.py, lines 657-668): 0 for empty content;
otherwise sum the recorded reliability of each URL of the content map
(absent metrics contribute 0) and return `min(100, total // len(content))`.
The session's `source_metrics` dict is the oracle `metrics`. -/
def calculate_content_confidence (metrics : String → Option Nat)
    (content : List (String × String)) : Nat :=
  if content.isEmpty then 0
  else
    let total := content.foldl (fun acc p => acc + ((metrics p.1).getD 0)) 0
    min 100 (total / content.length)

/-- The stages of one research-loop attempt (the external-collaborator
calls whose start the loop controls). -/
inductive Stage
  | formulate
  | search
  | select
  | scrape
  | evaluate
  | answer
deriving DecidableEq

/-- Oracle for the per-attempt outcomes of the collaborator-backed stage
calls: for attempt `i`, the formulated query, the search-provider results,
the selected URLs, the scraped content, the computed content confidence and
the evaluator decision; `answerText` is the text the answer-synthesis model
call returns. -/
structure LoopEnv where
  query : Nat → String
  results : Nat → List SearchResult
  selected : Nat → List String
  scraped : Nat → List (String × String)
  confidence : Nat → Nat
  decision : Nat → String
  answerText : String

/-- The cooperative cancellation flag as a function of elapsed stage calls:
`stopAfter = some k` means the stop request arrives once `k` stage calls
have completed (so every flag read at a time `≥ k` sees it set);
`none` means no stop is ever requested. -/
def stopFlag (stopAfter : Option Nat) (t : Nat) : Bool :=
  match stopAfter with
  | none => false
  | some k => k ≤ t

/-- The best-content pointer held across attempts by
`AsyncSearchEngine.search_and_improve`
(api/search_engine_manager.py, lines 486-487). -/
structure BestState where
  content : List (String × String)
  conf : Nat
deriving DecidableEq

/-- The best-content update of `AsyncSearchEngine.search_and_improve`
(api/search_engine_manager.py, lines 550-552): overwrite only when the new
confidence strictly exceeds the stored one. -/
def updateBest (s : BestState) (newContent : List (String × String))
    (newConf : Nat) : BestState :=
  if newConf > s.conf then ⟨newContent, newConf⟩ else s

/-- Result of a run of the manager research loop: the time-stamped trace of
stage calls, the status events the loop itself puts on the queue, the final
answer text, the final best-content state, every per-attempt confidence
that was computed, and the final value of the attempt counter. -/
structure ManagerOut where
  trace : List (Nat × Stage)
  statuses : List String
  answer : String
  best : BestState
  confs : List Nat
  attempts : Nat
deriving DecidableEq

/-- The apology constant of `AsyncSearchEngine.search_and_improve`
(api/search_engine_manager.py, line 619). -/
def apologyAnswer : String :=
  "Based on the available information, I cannot provide a complete answer. Please try rephrasing your query."

/-- The post-loop exit path of `AsyncSearchEngine.search_and_improve`
(api/search_engine_manager.py, lines 615-655): synthesize from the best
content when there is any (a model call, traced as an `answer` stage),
otherwise return the fixed apology with no model call; either way a
`completed` status is sent. -/
def managerExit (env : LoopEnv) (t : Nat) (trace : List (Nat × Stage))
    (best : BestState) (confs : List Nat) (attempt : Nat) : ManagerOut :=
  if best.content.isEmpty then
    { trace := trace, statuses := ["completed"], answer := apologyAnswer,
      best := best, confs := confs, attempts := attempt }
  else
    { trace := trace ++ [(t, Stage.answer)], statuses := ["completed"],
      answer := env.answerText, best := best, confs := confs,
      attempts := attempt }

/-- Embeds the attempt loop of `AsyncSearchEngine.search_and_improve`
(api/search_engine_manager.py, lines 483-655).  `fuel` is the remaining
budget `max_attempts - attempt`; the cancellation flag is read only in the
`while` condition, i.e. at the attempt boundary; each empty stage outcome
advances the attempt counter and loops; the confidence of non-empty scraped
content is recorded and the best-content pointer updated; decision
`"answer"` or the last attempt triggers in-loop answer synthesis and a
`completed` status. -/
def managerGo (env : LoopEnv) (stopAfter : Option Nat) (maxAttempts : Nat) :
    Nat → Nat → Nat → List (Nat × Stage) → BestState → List Nat → ManagerOut
  | 0, attempt, t, trace, best, confs =>
    managerExit env t trace best confs attempt
  | fuel + 1, attempt, t, trace, best, confs =>
    if stopFlag stopAfter t then managerExit env t trace best confs attempt
    else
      let traceF := trace ++ [(t, Stage.formulate)]
      if env.query attempt = "" then
        managerGo env stopAfter maxAttempts fuel (attempt + 1) (t + 1) traceF best confs
      else
        let traceS := traceF ++ [(t + 1, Stage.search)]
        if (env.results attempt).isEmpty then
          managerGo env stopAfter maxAttempts fuel (attempt + 1) (t + 2) traceS best confs
        else
          let traceSel := traceS ++ [(t + 2, Stage.select)]
          if (env.selected attempt).isEmpty then
            managerGo env stopAfter maxAttempts fuel (attempt + 1) (t + 3) traceSel best confs
          else
            let traceScr := traceSel ++ [(t + 3, Stage.scrape)]
            if (env.scraped attempt).isEmpty then
              managerGo env stopAfter maxAttempts fuel (attempt + 1) (t + 4) traceScr best confs
            else
              let conf := env.confidence attempt
              let best' := updateBest best (env.scraped attempt) conf
              let confs' := confs ++ [conf]
              let traceE := traceScr ++ [(t + 4, Stage.evaluate)]
              if env.decision attempt = "answer" ∨ attempt = maxAttempts - 1 then
                { trace := traceE ++ [(t + 5, Stage.answer)],
                  statuses := ["completed"], answer := env.answerText,
                  best := best', confs := confs', attempts := attempt }
              else
                managerGo env stopAfter maxAttempts fuel (attempt + 1) (t + 5) traceE best' confs'

/-- A full run of the manager research loop from its initial state
(`attempt = 0`, `best_content = {}`, `best_confidence = 0`). -/
def managerRun (env : LoopEnv) (stopAfter : Option Nat) (maxAttempts : Nat) :
    ManagerOut :=
  managerGo env stopAfter maxAttempts maxAttempts 0 0 [] ⟨[], 0⟩ []

/-- Result of a run of the main.py research loop: the time-stamped stage
trace, the returned result string, the status sent by the `finally` block,
and the time at which the loop ended. -/
structure MainOut where
  trace : List (Nat × Stage)
  result : String
  finalStatus : String
  endTime : Nat
deriving DecidableEq

/-- The fixed return value of `AsyncSearchEngine.search_and_improve` in
api/main.py when a stop is observed (lines 307-357). -/
def stoppedResult : String := "Search stopped by user"

/-- The `finally` block of `AsyncSearchEngine.search_and_improve`
(api/main.py, lines 365-369): report `Search stopped` when the flag is set
at exit time, else `Search completed`; never an error status. -/
def mainFinish (stopAfter : Option Nat) (t : Nat) (trace : List (Nat × Stage))
    (result : String) : MainOut :=
  { trace := trace, result := result,
    finalStatus := if stopFlag stopAfter t then "Search stopped" else "Search completed",
    endTime := t }

/-- Embeds the attempt loop of `AsyncSearchEngine.search_and_improve` in
api/main.py (lines 296-369): the cancellation flag is read in the `while`
condition and again after every stage call; any read that sees it set
returns `stoppedResult` immediately; empty search results, empty selection
or empty scraped content advance the attempt and loop; decision `"answer"`
triggers in-loop answer generation; an exhausted budget falls through to
`synthesize_final_answer` (a model call, traced as an `answer` stage)
unless the flag is set. -/
def mainGo (env : LoopEnv) (stopAfter : Option Nat) :
    Nat → Nat → Nat → List (Nat × Stage) → MainOut
  | 0, _, t, trace =>
    if stopFlag stopAfter t then mainFinish stopAfter t trace stoppedResult
    else mainFinish stopAfter (t + 1) (trace ++ [(t, Stage.answer)]) env.answerText
  | fuel + 1, attempt, t, trace =>
    if stopFlag stopAfter t then mainFinish stopAfter t trace stoppedResult
    else
      let traceF := trace ++ [(t, Stage.formulate)]
      if stopFlag stopAfter (t + 1) then mainFinish stopAfter (t + 1) traceF stoppedResult
      else
        let traceS := traceF ++ [(t + 1, Stage.search)]
        if stopFlag stopAfter (t + 2) then mainFinish stopAfter (t + 2) traceS stoppedResult
        else if (env.results attempt).isEmpty then
          mainGo env stopAfter fuel (attempt + 1) (t + 2) traceS
        else
          let traceSel := traceS ++ [(t + 2, Stage.select)]
          if stopFlag stopAfter (t + 3) then mainFinish stopAfter (t + 3) traceSel stoppedResult
          else if (env.selected attempt).isEmpty then
            mainGo env stopAfter fuel (attempt + 1) (t + 3) traceSel
          else
            let traceScr := traceSel ++ [(t + 3, Stage.scrape)]
            if stopFlag stopAfter (t + 4) then mainFinish stopAfter (t + 4) traceScr stoppedResult
            else if (env.scraped attempt).isEmpty then
              mainGo env stopAfter fuel (attempt + 1) (t + 4) traceScr
            else
              let traceE := traceScr ++ [(t + 4, Stage.evaluate)]
              if stopFlag stopAfter (t + 5) then mainFinish stopAfter (t + 5) traceE stoppedResult
              else if env.decision attempt = "answer" then
                mainFinish stopAfter (t + 6) (traceE ++ [(t + 5, Stage.answer)]) env.answerText
              else
                mainGo env stopAfter fuel (attempt + 1) (t + 5) traceE

/-- A full run of the main.py research loop from attempt 0. -/
def mainRun (env : LoopEnv) (stopAfter : Option Nat) (maxAttempts : Nat) :
    MainOut :=
  mainGo env stopAfter maxAttempts 0 0 []

/-- A demonstration oracle on which every stage succeeds and the evaluator
always asks for refinement. -/
def envDemo : LoopEnv where
  query := fun _ => "q"
  results := fun _ => [⟨1, "u1"⟩]
  selected := fun _ => ["u1"]
  scraped := fun _ => [("u1", "page text")]
  confidence := fun _ => 80
  decision := fun _ => "refine"
  answerText := "final answer"

/-- A demonstration oracle whose search provider returns no results on any
attempt. -/
def envEmpty : LoopEnv :=
  { envDemo with results := fun _ => [] }

/-- Search results used in concrete selection scenarios: the top-ranked
result is disallowed by the robots policy (`canFetchDemo`), the other two
are permitted. -/
def resultsDemo : List SearchResult := [⟨1, "u1"⟩, ⟨2, "u2"⟩, ⟨3, "u3"⟩]

/-- Robots-policy oracle for the selection scenarios: `u1` is disallowed. -/
def canFetchDemo : String → Bool := fun u => !(u == "u1")

/- ------------------------------------------------------------------ -/
/- Theorems.                                                           -/
/- ------------------------------------------------------------------ -/

theorem updateBest_conf_le (s : BestState) (c : List (String × String)) (n : Nat) :
    s.conf ≤ (updateBest s c n).conf := by
  unfold updateBest
  split
  · exact Nat.le_of_lt (by assumption)
  · exact Nat.le_refl _

theorem updateBest_new_le (s : BestState) (c : List (String × String)) (n : Nat) :
    n ≤ (updateBest s c n).conf := by
  unfold updateBest
  split
  · exact Nat.le_refl _
  · exact Nat.le_of_not_lt (by assumption)

/-- Claim C5 (amended): the sufficiency evaluator of the research loop,
`EnhancedSelfImprovingSearch.evaluate_scraped_content`, always returns a
decision in the two-element set, and when no model reply parses to a valid
decision within its 3 retries it returns decision `refine` with the
failure reason as the evaluation text.  (The manager's single-shot
`evaluate_content` variant does not validate the decision; see the
counterexample.) -/
theorem C5_evaluator_decision_valid :
    (∀ replies : List String,
      (evaluate_scraped_content replies).2 = "answer" ∨
      (evaluate_scraped_content replies).2 = "refine") ∧
    (∀ replies : List String,
      (∀ r ∈ replies,
        ¬ ((parse_evaluation_response r).2 = "answer" ∨
           (parse_evaluation_response r).2 = "refine")) →
      evaluate_scraped_content replies = ("Failed to evaluate content.", "refine")) := by
  constructor
  · intro replies
    induction replies with
    | nil => simp [evaluate_scraped_content]
    | cons r rest ih =>
      simp only [evaluate_scraped_content]
      split
      · assumption
      · exact ih
  · intro replies h
    induction replies with
    | nil => simp [evaluate_scraped_content]
    | cons r rest ih =>
      simp only [evaluate_scraped_content]
      split
      · exact absurd (by assumption) (h r (List.mem_cons_self r rest))
      · exact ih (fun x hx => h x (List.mem_cons_of_mem r hx))

/-- Witness for C5 at a concrete unparseable reply. -/
theorem C5_evaluator_decision_valid_witness :
    evaluate_scraped_content ["junk"] = ("Failed to evaluate content.", "refine") ∧
    ((evaluate_scraped_content ["junk"]).2 = "answer" ∨
      (evaluate_scraped_content ["junk"]).2 = "refine") :=
  ⟨C5_evaluator_decision_valid.2 ["junk"] (by decide),
   C5_evaluator_decision_valid.1 ["junk"]⟩

/-- Counterexample to C5 as stated: the manager's sufficiency-evaluation
stage (`AsyncSearchEngine.evaluate_content`) forwards the model's raw
lowercased decision text, so the reply `"Decision: maybe"` produces the
decision `"maybe"`, outside the two-element set, with no retry. -/
theorem C5_counterexample :
    manager_evaluate_content "Decision: maybe" = ("", "maybe") ∧
    ¬ ((manager_evaluate_content "Decision: maybe").2 = "answer" ∨
       (manager_evaluate_content "Decision: maybe").2 = "refine") := by decide

/-- Claim C6 (amended): on the main.py path, `AsyncMessageHandler` emits
events with a non-blocking put, so when the bounded queue is full the new
event is dropped (queue unchanged) and the producer continues; on the
manager path, `WebSocketMessageHandler.send_progress_update` uses a
blocking put, so that producer blocks (the put does not return) when the
capacity-1000 session queue is full. -/
theorem C6_full_queue_behavior :
    (∀ (cap : Nat) (st : HandlerState) (m : QueueMsg),
      cap ≤ st.queue.length → (handle_message cap st m).queue = st.queue) ∧
    (∀ (cap : Nat) (q : List QueueMsg) (message : String),
      cap ≤ q.length → manager_send_progress_update cap q message = none) := by
  constructor
  · intro cap st m hfull
    unfold handle_message
    dsimp only
    split
    · rfl
    · split
      · rfl
      · split
        · rfl
        · simp only [put_nowait_drop]
          rw [if_neg (by omega)]
  · intro cap q message hfull
    unfold manager_send_progress_update blockingPut
    rw [if_neg (by omega)]

/-- Witness for C6 at a concrete full queue of capacity 1. -/
theorem C6_full_queue_behavior_witness :
    (handle_message 1 ⟨[⟨"info", "x"⟩], none, false⟩ ⟨"info", "y"⟩).queue =
      [⟨"info", "x"⟩] ∧
    manager_send_progress_update 1 [⟨"progress", "x"⟩] "y" = none :=
  ⟨C6_full_queue_behavior.1 1 ⟨[⟨"info", "x"⟩], none, false⟩ ⟨"info", "y"⟩ (by decide),
   C6_full_queue_behavior.2 1 [⟨"progress", "x"⟩] "y" (by decide)⟩

/-- Counterexample to C6 as stated: with the session queue at its capacity
of 1000, the manager's producer path performs a blocking put that does not
return — the producer blocks instead of dropping the event and
continuing. -/
theorem C6_counterexample :
    manager_send_progress_update 1000
      (List.replicate 1000 ⟨"progress", "working"⟩) "working" = none := by
  unfold manager_send_progress_update blockingPut
  rw [if_neg (by rw [List.length_replicate]; omega)]

/-- Claim C8 (amended): on the main.py path, `AsyncMessageHandler`
suppresses a progress event whose type and (stripped) text equal the
previous event's — the second of two consecutive identical events is never
enqueued, while the first is enqueued whenever the queue has room.  (The
manager's `send_progress_update` performs no duplicate suppression; see the
counterexample.) -/
theorem C8_duplicate_suppression :
    ∀ (cap : Nat) (st : HandlerState) (m1 m2 : QueueMsg),
      st.stopSet = false →
      pyStrip m1.message ≠ "" →
      m2.type = m1.type →
      pyStrip m2.message = pyStrip m1.message →
      dupCheck st.lastMessage ⟨m1.type, pyStrip m1.message⟩ = false →
      handle_message cap (handle_message cap st m1) m2 = handle_message cap st m1 ∧
      (st.queue.length < cap →
        (handle_message cap st m1).queue = st.queue ++ [⟨m1.type, pyStrip m1.message⟩]) := by
  intro cap st m1 m2 hstop hne htype hmsg hdup
  have h1 : handle_message cap st m1 =
      { st with lastMessage := some ⟨m1.type, pyStrip m1.message⟩,
                queue := put_nowait_drop cap st.queue ⟨m1.type, pyStrip m1.message⟩ } := by
    unfold handle_message
    rw [if_neg (by simp [hstop]), if_neg hne, if_neg (by simp [hdup])]
  constructor
  · rw [h1]
    unfold handle_message
    rw [if_neg (by simp [hstop])]
    rw [if_neg (by simpa [hmsg] using hne)]
    rw [if_pos (by simp [dupCheck, htype, hmsg])]
  · intro hroom
    rw [h1]
    simp only [put_nowait_drop]
    rw [if_pos hroom]

/-- Witness for C8 at two concrete identical `info` events on an empty
handler. -/
theorem C8_duplicate_suppression_witness :
    handle_message 1000 (handle_message 1000 ⟨[], none, false⟩ ⟨"info", "working"⟩)
        ⟨"info", "working"⟩ =
      handle_message 1000 ⟨[], none, false⟩ ⟨"info", "working"⟩ ∧
    (handle_message 1000 ⟨[], none, false⟩ ⟨"info", "working"⟩).queue =
      [⟨"info", "working"⟩] := by
  have h := C8_duplicate_suppression 1000 ⟨[], none, false⟩ ⟨"info", "working"⟩
    ⟨"info", "working"⟩ rfl (by decide) rfl rfl (by decide)
  refine ⟨h.1, ?_⟩
  rw [h.2 (by decide)]
  decide

/-- Counterexample to C8 as stated: the manager's progress producer
(`WebSocketMessageHandler.send_progress_update`) enqueues two consecutive
identical progress events both times — the second is not suppressed. -/
theorem C8_counterexample :
    manager_send_progress_update 1000 [] "working" =
      some [⟨"progress", "working"⟩] ∧
    manager_send_progress_update 1000 [⟨"progress", "working"⟩] "working" =
      some [⟨"progress", "working"⟩, ⟨"progress", "working"⟩] := by decide

theorem requeueStep_eq_rotate {α : Type} (l : List α) :
    requeueStep l = l.rotate 1 := by
  cases l with
  | nil => simp [requeueStep]
  | cons x xs =>
    have h : (x :: xs).rotate (0 + 1) = (xs ++ [x]).rotate 0 :=
      List.rotate_cons_succ xs x 0
    simp only [List.rotate_zero, Nat.zero_add] at h
    simp [requeueStep, h]

theorem scenarioD_delivered_eq_rotate {α : Type} (l : List α) (k : Nat) :
    scenarioD_delivered l k = l.rotate k := by
  induction k with
  | zero => simp [scenarioD_delivered]
  | succ n ih =>
    unfold scenarioD_delivered at ih ⊢
    rw [Function.iterate_succ_apply', ih, requeueStep_eq_rotate,
      List.rotate_rotate]

/-- Claim C7 (amended): when the broadcaster drains `k` events with no
observer attached (each pushed back to the tail of the queue), every
emitted event is still delivered exactly once after an observer attaches —
nothing is lost — but delivery is in rotated order: the requeued events
come after the remaining ones, so original emission order is not
preserved. -/
theorem C7_requeue_preserves_events :
    ∀ (events : List Nat) (k : Nat),
      (scenarioD_delivered events k).Perm events ∧
      (k ≤ events.length →
        scenarioD_delivered events k = events.drop k ++ events.take k) := by
  intro events k
  rw [scenarioD_delivered_eq_rotate]
  exact ⟨List.rotate_perm events k,
    fun h => List.rotate_eq_drop_append_take h⟩

/-- Witness for C7 at a concrete 3-event queue with one observer-less
drain. -/
theorem C7_requeue_preserves_events_witness :
    (scenarioD_delivered [0, 1, 2] 1).Perm [0, 1, 2] ∧
    scenarioD_delivered [0, 1, 2] 1 = [1, 2, 0] := by
  have h := C7_requeue_preserves_events [0, 1, 2] 1
  refine ⟨h.1, ?_⟩
  rw [h.2 (by decide)]
  decide

/-- Counterexample to C7 as stated: 1000 distinct events with the first 10
drained and requeued while no observer is attached are all delivered, but
in rotated order — the delivery sequence differs from the original
emission order (event 10 is delivered first, events 0-9 last). -/
theorem C7_counterexample :
    scenarioD_delivered (List.range 1000) 10 ≠ List.range 1000 ∧
    (scenarioD_delivered (List.range 1000) 10).Perm (List.range 1000) := by
  constructor
  · rw [scenarioD_delivered_eq_rotate]
    intro h
    have h0 := congrArg (fun l : List Nat => l[0]?) h
    simp only [List.rotate_eq_drop_append_take (by simp : 10 ≤ (List.range 1000).length)] at h0
    rw [List.getElem?_append_left (by simp), List.getElem?_drop,
      List.getElem?_range (by omega), List.getElem?_range (by omega)] at h0
    exact absurd (Option.some.inj h0) (by omega)
  · rw [scenarioD_delivered_eq_rotate]
    exact List.rotate_perm _ _

theorem alistGet_alistSet {α : Type} (l : List (String × α)) (k : String) (v : α) :
    alistGet (alistSet l k v) k = some v := by
  induction l with
  | nil => simp [alistGet, alistSet]
  | cons p rest ih =>
    unfold alistSet
    by_cases hk : p.1 == k
    · rw [if_pos hk]
      simp [alistGet]
    · rw [if_neg hk]
      unfold alistGet at ih ⊢
      have hk' : (p.1 == k) = false := by simpa using hk
      simp only [List.find?_cons, hk']
      exact ih

/-- Claim C9: `begin_research` fails with HTTP 400 and starts nothing when
the session has no observer channel (no entry, or an empty connection
list, in `active_connections`), and otherwise stores the session with
status `starting`, submits the research worker and returns response status
`started`. -/
theorem C9_begin_requires_observer :
    ∀ (st : AppState) (sid q mode : String),
      ((alistGet st.active_connections sid = none ∨
        alistGet st.active_connections sid = some []) →
        begin_research st sid q mode = (Except.error 400, st)) ∧
      (∀ (c : Nat) (cs : List Nat),
        alistGet st.active_connections sid = some (c :: cs) →
        (begin_research st sid q mode).1 = Except.ok "started" ∧
        sid ∈ (begin_research st sid q mode).2.active_tasks ∧
        alistGet (begin_research st sid q mode).2.research_sessions sid =
          some ⟨q, mode, "starting"⟩) := by
  intro st sid q mode
  constructor
  · intro h
    rcases h with h | h <;> simp [begin_research, h]
  · intro c cs h
    simp only [begin_research, h]
    refine ⟨rfl, ?_, ?_⟩
    · simp
    · exact alistGet_alistSet st.research_sessions sid ⟨q, mode, "starting"⟩

/-- Witness for C9 at a concrete one-session state: begin fails before an
observer attaches and succeeds after. -/
theorem C9_begin_requires_observer_witness :
    begin_research ⟨[("s1", [])], [], []⟩ "s1" "question" "research" =
      (Except.error 400, ⟨[("s1", [])], [], []⟩) ∧
    (begin_research ⟨[("s1", [7])], [], []⟩ "s1" "question" "research").1 =
      Except.ok "started" ∧
    "s1" ∈ (begin_research ⟨[("s1", [7])], [], []⟩ "s1" "question" "research").2.active_tasks := by
  have h1 := (C9_begin_requires_observer ⟨[("s1", [])], [], []⟩ "s1" "question" "research").1
    (Or.inr (by decide))
  have h2 := (C9_begin_requires_observer ⟨[("s1", [7])], [], []⟩ "s1" "question" "research").2
    7 [] (by decide)
  exact ⟨h1, h2.1, h2.2.1⟩

theorem confidence_foldl_lower (metrics : String → Option Nat) :
    ∀ (l : List (String × String)) (acc : Nat),
      (∀ p ∈ l, 60 ≤ (metrics p.1).getD 0) →
      acc + 60 * l.length ≤
        l.foldl (fun a p => a + ((metrics p.1).getD 0)) acc := by
  intro l
  induction l with
  | nil => intro acc _; simp
  | cons p rest ih =>
    intro acc h
    have hp : 60 ≤ (metrics p.1).getD 0 := h p (List.mem_cons_self p rest)
    have hrest := ih (acc + ((metrics p.1).getD 0))
      (fun x hx => h x (List.mem_cons_of_mem p hx))
    simp only [List.foldl_cons, List.length_cons] at hrest ⊢
    omega

/-- Claim C10: every reliability score recorded for a successfully scraped
URL lies in `[60, 100]` (base 50 plus a length bonus of at least 10, capped
at 100), and consequently the computed confidence of any non-empty content
map whose URLs all carry recorded metrics in `[60, 100]` also lies in
`[60, 100]`. -/
theorem C10_reliability_confidence_bounds :
    (∀ s : String,
      60 ≤ scrape_reliability s ∧ scrape_reliability s ≤ 100) ∧
    (∀ (metrics : String → Option Nat) (content : List (String × String)),
      content ≠ [] →
      (∀ p ∈ content, ∃ r, metrics p.1 = some r ∧ 60 ≤ r ∧ r ≤ 100) →
      60 ≤ calculate_content_confidence metrics content ∧
        calculate_content_confidence metrics content ≤ 100) := by
  constructor
  · intro s
    unfold scrape_reliability
    dsimp only
    split_ifs <;> exact ⟨by decide, by decide⟩
  · intro metrics content hne h
    have hlen : 0 < content.length := List.length_pos.2 hne
    have hbound : ∀ p ∈ content, 60 ≤ (metrics p.1).getD 0 := by
      intro p hp
      obtain ⟨r, hr, hr60, _⟩ := h p hp
      rw [hr]
      exact hr60
    have htotal := confidence_foldl_lower metrics content 0 hbound
    unfold calculate_content_confidence
    rw [if_neg (by simpa [List.isEmpty_iff] using hne)]
    constructor
    · refine Nat.le_min.2 ⟨by omega, ?_⟩
      rw [Nat.le_div_iff_mul_le hlen]
      omega
    · exact Nat.min_le_left _ _

/-- Witness for C10 at a concrete scraped page and a concrete single-URL
content map. -/
theorem C10_reliability_confidence_bounds_witness :
    (60 ≤ scrape_reliability "short text" ∧ scrape_reliability "short text" ≤ 100) ∧
    (60 ≤ calculate_content_confidence (fun _ => some 80) [("u1", "page text")] ∧
      calculate_content_confidence (fun _ => some 80) [("u1", "page text")] ≤ 100) :=
  ⟨C10_reliability_confidence_bounds.1 "short text",
   C10_reliability_confidence_bounds.2 (fun _ => some 80) [("u1", "page text")]
     (by decide) (fun p _ => ⟨80, rfl, by decide, by decide⟩)⟩

theorem selection_attempt_some (canFetch : String → Bool)
    (results : List SearchResult) (reply : String) (urls : List String)
    (h : selection_attempt canFetch results reply = some urls) :
    ∃ nums reasoning,
      parse_page_selection_response reply = some (nums, reasoning) ∧
      validate_page_selection_response nums results.length = true ∧
      urls = ((results.filter (fun r => decide (r.number ∈ nums))).map
        (fun r => r.href)).filter canFetch := by
  unfold selection_attempt at h
  cases hp : parse_page_selection_response reply with
  | none => rw [hp] at h; exact absurd h (by simp)
  | some p =>
    obtain ⟨nums, reasoning⟩ := p
    rw [hp] at h
    dsimp only at h
    by_cases hv : validate_page_selection_response nums results.length
    · rw [if_pos hv] at h
      refine ⟨nums, reasoning, rfl, hv, ?_⟩
      split at h
      · exact absurd h (by simp)
      · exact (Option.some.inj h).symm
    · rw [if_neg hv] at h
      exact absurd h (by simp)

theorem length_filter_mem_le (results : List SearchResult) (nums : List Nat)
    (hnd : (results.map SearchResult.number).Nodup) :
    (results.filter (fun r => decide (r.number ∈ nums))).length ≤ nums.length := by
  classical
  have hsub : List.Sublist
      ((results.filter (fun r => decide (r.number ∈ nums))).map SearchResult.number)
      (results.map SearchResult.number) :=
    (List.filter_sublist results).map _
  have hnodup := hsub.nodup hnd
  have hss : ∀ x ∈ (results.filter (fun r => decide (r.number ∈ nums))).map
      SearchResult.number, x ∈ nums := by
    intro x hx
    obtain ⟨r, hr, hxr⟩ := List.mem_map.1 hx
    have hmem := List.of_mem_filter hr
    rw [← hxr]
    exact of_decide_eq_true hmem
  calc (results.filter (fun r => decide (r.number ∈ nums))).length
      = ((results.filter (fun r => decide (r.number ∈ nums))).map
          SearchResult.number).length := (List.length_map _ _).symm
    _ = ((results.filter (fun r => decide (r.number ∈ nums))).map
          SearchResult.number).toFinset.card :=
        (List.toFinset_card_of_nodup hnodup).symm
    _ ≤ nums.toFinset.card :=
        Finset.card_le_card
          (fun x hx => List.mem_toFinset.2 (hss x (List.mem_toFinset.1 hx)))
    _ ≤ nums.length := List.toFinset_card_le nums

theorem selection_fallback_length_le (canFetch : String → Bool)
    (results : List SearchResult) :
    (selection_fallback canFetch results).length ≤ 2 := by
  unfold selection_fallback
  rw [List.length_take]
  omega

theorem selection_fallback_mem (canFetch : String → Bool)
    (results : List SearchResult) :
    ∀ u ∈ selection_fallback canFetch results, canFetch u = true := by
  intro u hu
  unfold selection_fallback at hu
  obtain ⟨r, hr, hru⟩ := List.mem_map.1 (List.take_subset 2 _ hu)
  rw [← hru]
  exact (List.mem_filter.1 hr).2

theorem select_relevant_pages_bounds (canFetch : String → Bool)
    (results : List SearchResult)
    (hnd : (results.map SearchResult.number).Nodup) :
    ∀ replies, (select_relevant_pages canFetch results replies).length ≤ 2 ∧
      ∀ u ∈ select_relevant_pages canFetch results replies, canFetch u = true := by
  intro replies
  induction replies with
  | nil =>
    exact ⟨selection_fallback_length_le canFetch results,
      selection_fallback_mem canFetch results⟩
  | cons reply rest ih =>
    unfold select_relevant_pages
    cases hsa : selection_attempt canFetch results reply with
    | none => exact ih
    | some urls =>
      obtain ⟨nums, reasoning, hp, hv, hurls⟩ :=
        selection_attempt_some canFetch results reply urls hsa
      have h2 : nums.length = 2 := by
        simp [validate_page_selection_response] at hv
        exact hv.1
      constructor
      · rw [hurls]
        calc (((results.filter (fun r => decide (r.number ∈ nums))).map
              (fun r => r.href)).filter canFetch).length
            ≤ ((results.filter (fun r => decide (r.number ∈ nums))).map
              (fun r => r.href)).length := List.length_filter_le _ _
          _ = (results.filter (fun r => decide (r.number ∈ nums))).length :=
              List.length_map _ _
          _ ≤ nums.length := length_filter_mem_le results nums hnd
          _ = 2 := h2
      · intro u hu
        rw [hurls] at hu
        exact List.of_mem_filter hu

theorem select_relevant_pages_all_fail (canFetch : String → Bool)
    (results : List SearchResult) :
    ∀ replies, (∀ r ∈ replies, selection_attempt canFetch results r = none) →
      select_relevant_pages canFetch results replies =
        selection_fallback canFetch results := by
  intro replies h
  induction replies with
  | nil => rfl
  | cons reply rest ih =>
    unfold select_relevant_pages
    rw [h reply (List.mem_cons_self reply rest)]
    exact ih (fun x hx => h x (List.mem_cons_of_mem reply hx))

theorem manager_select_bounds (canFetch : String → Bool)
    (results : List SearchResult) (reply : String)
    (hnd : (results.map SearchResult.number).Nodup) :
    (manager_select_relevant_pages canFetch results reply).length ≤ 2 ∧
      ∀ u ∈ manager_select_relevant_pages canFetch results reply,
        canFetch u = true := by
  unfold manager_select_relevant_pages
  dsimp only
  split_ifs with h2
  · constructor
    · calc (((results.filter (fun r =>
            decide (r.number ∈ firstSelectedNums (pyStripLines reply)))).map
            (fun r => r.href)).filter canFetch).length
          ≤ ((results.filter (fun r =>
            decide (r.number ∈ firstSelectedNums (pyStripLines reply)))).map
            (fun r => r.href)).length := List.length_filter_le _ _
        _ = (results.filter (fun r =>
            decide (r.number ∈ firstSelectedNums (pyStripLines reply)))).length :=
            List.length_map _ _
        _ ≤ (firstSelectedNums (pyStripLines reply)).length :=
            length_filter_mem_le results _ hnd
        _ = 2 := by simpa using h2
    · intro u hu
      exact List.of_mem_filter hu
  · constructor
    · calc (((results.take 2).filter (fun r => canFetch r.href)).map
            (fun r => r.href)).length
          = ((results.take 2).filter (fun r => canFetch r.href)).length :=
            List.length_map _ _
        _ ≤ (results.take 2).length := List.length_filter_le _ _
        _ ≤ 2 := by rw [List.length_take]; omega
    · intro u hu
      obtain ⟨r, hr, hru⟩ := List.mem_map.1 hu
      rw [← hru]
      exact (List.mem_filter.1 hr).2

/-- Claim C3 (amended): for every model reply, both page-selection variants
return at most 2 URLs, each permitted by the robots policy at selection
time; when all selection retries fail, the primary selector
(`EnhancedSelfImprovingSearch.select_relevant_pages`) falls back to the top
policy-permitted results by original rank truncated to 2, while the manager
variant instead filters the top 2 results by rank through the policy (and
so may return fewer than the top 2 permitted results; see the
counterexample). -/
theorem C3_selection_bounds :
    ∀ (canFetch : String → Bool) (results : List SearchResult)
      (replies : List String) (reply : String),
      (results.map SearchResult.number).Nodup →
      ((select_relevant_pages canFetch results replies).length ≤ 2 ∧
        ∀ u ∈ select_relevant_pages canFetch results replies, canFetch u = true) ∧
      ((manager_select_relevant_pages canFetch results reply).length ≤ 2 ∧
        ∀ u ∈ manager_select_relevant_pages canFetch results reply,
          canFetch u = true) ∧
      ((∀ r ∈ replies, selection_attempt canFetch results r = none) →
        select_relevant_pages canFetch results replies =
          selection_fallback canFetch results) :=
  fun canFetch results replies reply hnd =>
    ⟨select_relevant_pages_bounds canFetch results hnd replies,
     manager_select_bounds canFetch results reply hnd,
     select_relevant_pages_all_fail canFetch results replies⟩

/-- Witness for C3 at a concrete result list and an unparseable reply. -/
theorem C3_selection_bounds_witness :
    (select_relevant_pages canFetchDemo resultsDemo ["garbage"]).length ≤ 2 ∧
    (manager_select_relevant_pages canFetchDemo resultsDemo "garbage").length ≤ 2 ∧
    select_relevant_pages canFetchDemo resultsDemo ["garbage"] =
      selection_fallback canFetchDemo resultsDemo := by
  have h := C3_selection_bounds canFetchDemo resultsDemo ["garbage"] "garbage"
    (by decide)
  exact ⟨h.1.1, h.2.1.1, h.2.2 (by decide)⟩

/-- Counterexample to C3 as stated: with the top-ranked result disallowed
by the robots policy and an unparseable model reply, the manager's fallback
returns only `["u2"]` — the top-2-by-rank results filtered by policy — and
not the top 2 policy-permitted results `["u2", "u3"]` that the claim
specifies. -/
theorem C3_counterexample :
    manager_select_relevant_pages canFetchDemo resultsDemo "no numbers here" =
      ["u2"] ∧
    selection_fallback canFetchDemo resultsDemo = ["u2", "u3"] ∧
    manager_select_relevant_pages canFetchDemo resultsDemo "no numbers here" ≠
      selection_fallback canFetchDemo resultsDemo := by decide

theorem managerExit_inv (env : LoopEnv) (t : Nat) (trace : List (Nat × Stage))
    (best : BestState) (confs : List Nat) (attempt : Nat)
    (hinv : ∀ c ∈ confs, c ≤ best.conf) :
    ∀ c ∈ (managerExit env t trace best confs attempt).confs,
      c ≤ (managerExit env t trace best confs attempt).best.conf := by
  unfold managerExit
  split <;> exact hinv

theorem managerGo_conf_invariant (env : LoopEnv) (stopAfter : Option Nat)
    (maxA : Nat) :
    ∀ (fuel attempt t : Nat) (trace : List (Nat × Stage)) (best : BestState)
      (confs : List Nat),
      (∀ c ∈ confs, c ≤ best.conf) →
      ∀ c ∈ (managerGo env stopAfter maxA fuel attempt t trace best confs).confs,
        c ≤ (managerGo env stopAfter maxA fuel attempt t trace best confs).best.conf := by
  intro fuel
  induction fuel with
  | zero =>
    intro attempt t trace best confs hinv
    exact managerExit_inv env t trace best confs attempt hinv
  | succ n ih =>
    intro attempt t trace best confs hinv
    unfold managerGo
    dsimp only
    split
    · exact managerExit_inv env t trace best confs attempt hinv
    · split
      · exact ih (attempt + 1) (t + 1) _ best confs hinv
      · split
        · exact ih (attempt + 1) (t + 2) _ best confs hinv
        · split
          · exact ih (attempt + 1) (t + 3) _ best confs hinv
          · split
            · exact ih (attempt + 1) (t + 4) _ best confs hinv
            · have hinv' : ∀ c ∈ confs ++ [env.confidence attempt],
                  c ≤ (updateBest best (env.scraped attempt)
                    (env.confidence attempt)).conf := by
                intro c hc
                rcases List.mem_append.1 hc with h | h
                · exact Nat.le_trans (hinv c h) (updateBest_conf_le best _ _)
                · rw [List.mem_singleton.1 h]
                  exact updateBest_new_le best _ _
              split
              · exact hinv'
              · exact ih (attempt + 1) (t + 5) _ _ _ hinv'

/-- Claim C1: the best-content pointer is overwritten only when the new
confidence strictly exceeds the stored one (equal or lower confidence
leaves the state unchanged), and consequently, after any run of the
research loop, the stored best confidence is at least the confidence
computed for every individual attempt's scraped content. -/
theorem C1_best_content_monotone :
    (∀ (s : BestState) (c : List (String × String)) (n : Nat),
      n ≤ s.conf → updateBest s c n = s) ∧
    (∀ (env : LoopEnv) (stopAfter : Option Nat) (maxA : Nat),
      ∀ conf ∈ (managerRun env stopAfter maxA).confs,
        conf ≤ (managerRun env stopAfter maxA).best.conf) := by
  constructor
  · intro s c n h
    unfold updateBest
    rw [if_neg (by omega)]
  · intro env stopAfter maxA
    unfold managerRun
    exact managerGo_conf_invariant env stopAfter maxA maxA 0 0 [] ⟨[], 0⟩ []
      (by simp)

/-- Witness for C1: a lower-confidence update leaves the pointer unchanged,
and in a concrete run the stored best confidence dominates the recorded
attempt confidence. -/
theorem C1_best_content_monotone_witness :
    updateBest ⟨[("u1", "x")], 80⟩ [("u2", "y")] 70 = ⟨[("u1", "x")], 80⟩ ∧
    80 ≤ (managerRun envDemo none 1).best.conf :=
  ⟨C1_best_content_monotone.1 ⟨[("u1", "x")], 80⟩ [("u2", "y")] 70 (by decide),
   C1_best_content_monotone.2 envDemo none 1 80 (by decide)⟩

theorem trace_append_no_answer (trace : List (Nat × Stage)) (e : Nat × Stage)
    (h : ∀ p ∈ trace, p.2 ≠ Stage.answer) (he : e.2 ≠ Stage.answer) :
    ∀ p ∈ trace ++ [e], p.2 ≠ Stage.answer := by
  intro p hp
  rcases List.mem_append.1 hp with h1 | h1
  · exact h p h1
  · rw [List.mem_singleton.1 h1]
    exact he

theorem managerGo_empty_results (env : LoopEnv) (maxA : Nat)
    (hres : ∀ i, env.results i = []) :
    ∀ (fuel attempt t : Nat) (trace : List (Nat × Stage)) (best : BestState)
      (confs : List Nat),
      (managerGo env none maxA fuel attempt t trace best confs).best = best ∧
      (managerGo env none maxA fuel attempt t trace best confs).confs = confs ∧
      (managerGo env none maxA fuel attempt t trace best confs).attempts =
        attempt + fuel ∧
      (managerGo env none maxA fuel attempt t trace best confs).answer =
        (if best.content.isEmpty then apologyAnswer else env.answerText) ∧
      (best.content.isEmpty = true →
        (∀ p ∈ trace, p.2 ≠ Stage.answer) →
        ∀ p ∈ (managerGo env none maxA fuel attempt t trace best confs).trace,
          p.2 ≠ Stage.answer) := by
  intro fuel
  induction fuel with
  | zero =>
    intro attempt t trace best confs
    unfold managerGo managerExit
    split
    · refine ⟨rfl, rfl, rfl, rfl, ?_⟩
      intro _ htr
      exact htr
    · refine ⟨rfl, rfl, rfl, rfl, ?_⟩
      intro hEmpty _
      exact absurd hEmpty (by assumption)
  | succ n ih =>
    intro attempt t trace best confs
    unfold managerGo
    rw [if_neg (by simp [stopFlag])]
    dsimp only
    by_cases hq : env.query attempt = ""
    · rw [if_pos hq]
      have h := ih (attempt + 1) (t + 1) (trace ++ [(t, Stage.formulate)]) best confs
      refine ⟨h.1, h.2.1, by rw [h.2.2.1]; omega, h.2.2.2.1, ?_⟩
      intro hEmpty htr
      exact h.2.2.2.2 hEmpty
        (trace_append_no_answer trace (t, Stage.formulate) htr (by simp))
    · rw [if_neg hq, hres attempt]
      rw [if_pos (show (List.isEmpty ([] : List SearchResult)) = true from rfl)]
      have h := ih (attempt + 1) (t + 2)
        ((trace ++ [(t, Stage.formulate)]) ++ [(t + 1, Stage.search)]) best confs
      refine ⟨h.1, h.2.1, by rw [h.2.2.1]; omega, h.2.2.2.1, ?_⟩
      intro hEmpty htr
      exact h.2.2.2.2 hEmpty
        (trace_append_no_answer _ (t + 1, Stage.search)
          (trace_append_no_answer trace (t, Stage.formulate) htr (by simp))
          (by simp))

/-- Claim C4: when the search provider returns no results on any attempt
and no stop is requested, the manager research loop consumes exactly its
full budget of attempts, the best-content pointer stays empty with
confidence 0, and the final answer is the fixed degraded apology constant,
produced without an answer-synthesis model call. -/
theorem C4_empty_search_degraded :
    ∀ (env : LoopEnv) (maxA : Nat),
      (∀ i, env.results i = []) →
      (managerRun env none maxA).answer = apologyAnswer ∧
      (managerRun env none maxA).best = ⟨[], 0⟩ ∧
      (managerRun env none maxA).attempts = maxA ∧
      ∀ p ∈ (managerRun env none maxA).trace, p.2 ≠ Stage.answer := by
  intro env maxA hres
  unfold managerRun
  have h := managerGo_empty_results env maxA hres maxA 0 0 [] ⟨[], 0⟩ []
  refine ⟨by rw [h.2.2.2.1]; rfl, h.1, by rw [h.2.2.1]; omega, ?_⟩
  exact h.2.2.2.2 rfl (by simp)

/-- Witness for C4 at a concrete empty-results oracle with budget 3. -/
theorem C4_empty_search_degraded_witness :
    (managerRun envEmpty none 3).answer = apologyAnswer ∧
    (managerRun envEmpty none 3).best = ⟨[], 0⟩ ∧
    (managerRun envEmpty none 3).attempts = 3 :=
  ⟨(C4_empty_search_degraded envEmpty 3 (fun _ => rfl)).1,
   (C4_empty_search_degraded envEmpty 3 (fun _ => rfl)).2.1,
   (C4_empty_search_degraded envEmpty 3 (fun _ => rfl)).2.2.1⟩

theorem trace_append_guard (stopAfter : Option Nat)
    (trace : List (Nat × Stage)) (e : Nat × Stage)
    (h : ∀ p ∈ trace, stopFlag stopAfter p.1 = false)
    (he : stopFlag stopAfter e.1 = false) :
    ∀ p ∈ trace ++ [e], stopFlag stopAfter p.1 = false := by
  intro p hp
  rcases List.mem_append.1 hp with h1 | h1
  · exact h p h1
  · rw [List.mem_singleton.1 h1]
    exact he

theorem mainFinish_guard (stopAfter : Option Nat) (t : Nat)
    (trace : List (Nat × Stage)) (result : String)
    (htr : ∀ p ∈ trace, stopFlag stopAfter p.1 = false) :
    (∀ p ∈ (mainFinish stopAfter t trace result).trace,
      stopFlag stopAfter p.1 = false) ∧
    ((mainFinish stopAfter t trace result).finalStatus = "Search stopped" ∨
      (mainFinish stopAfter t trace result).finalStatus = "Search completed") ∧
    (stopFlag stopAfter (mainFinish stopAfter t trace result).endTime = true →
      (mainFinish stopAfter t trace result).finalStatus = "Search stopped") := by
  unfold mainFinish
  by_cases h : stopFlag stopAfter t = true
  · exact ⟨htr, Or.inl (by dsimp only; rw [if_pos h]),
      fun _ => by dsimp only; rw [if_pos h]⟩
  · exact ⟨htr, Or.inr (by dsimp only; rw [if_neg h]),
      fun hc => absurd hc h⟩

theorem mainGo_guard (env : LoopEnv) (stopAfter : Option Nat) :
    ∀ (fuel attempt t : Nat) (trace : List (Nat × Stage)),
      (∀ p ∈ trace, stopFlag stopAfter p.1 = false) →
      (∀ p ∈ (mainGo env stopAfter fuel attempt t trace).trace,
        stopFlag stopAfter p.1 = false) ∧
      ((mainGo env stopAfter fuel attempt t trace).finalStatus = "Search stopped" ∨
        (mainGo env stopAfter fuel attempt t trace).finalStatus = "Search completed") ∧
      (stopFlag stopAfter (mainGo env stopAfter fuel attempt t trace).endTime = true →
        (mainGo env stopAfter fuel attempt t trace).finalStatus = "Search stopped") := by
  intro fuel
  induction fuel with
  | zero =>
    intro attempt t trace htr
    unfold mainGo
    by_cases h0 : stopFlag stopAfter t = true
    · rw [if_pos h0]
      exact mainFinish_guard stopAfter t trace stoppedResult htr
    · rw [if_neg h0]
      exact mainFinish_guard stopAfter (t + 1) _ env.answerText
        (trace_append_guard stopAfter trace (t, Stage.answer) htr
          (Bool.not_eq_true _ ▸ h0))
  | succ n ih =>
    intro attempt t trace htr
    unfold mainGo
    dsimp only
    by_cases h0 : stopFlag stopAfter t = true
    · rw [if_pos h0]
      exact mainFinish_guard stopAfter t trace stoppedResult htr
    · rw [if_neg h0]
      have htrF := trace_append_guard stopAfter trace (t, Stage.formulate) htr
        (Bool.not_eq_true _ ▸ h0)
      by_cases h1 : stopFlag stopAfter (t + 1) = true
      · rw [if_pos h1]
        exact mainFinish_guard stopAfter (t + 1) _ stoppedResult htrF
      · rw [if_neg h1]
        have htrS := trace_append_guard stopAfter _ (t + 1, Stage.search) htrF
          (Bool.not_eq_true _ ▸ h1)
        by_cases h2 : stopFlag stopAfter (t + 2) = true
        · rw [if_pos h2]
          exact mainFinish_guard stopAfter (t + 2) _ stoppedResult htrS
        · rw [if_neg h2]
          by_cases hres : (env.results attempt).isEmpty = true
          · rw [if_pos hres]
            exact ih (attempt + 1) (t + 2) _ htrS
          · rw [if_neg hres]
            have htrSel := trace_append_guard stopAfter _ (t + 2, Stage.select) htrS
              (Bool.not_eq_true _ ▸ h2)
            by_cases h3 : stopFlag stopAfter (t + 3) = true
            · rw [if_pos h3]
              exact mainFinish_guard stopAfter (t + 3) _ stoppedResult htrSel
            · rw [if_neg h3]
              by_cases hsel : (env.selected attempt).isEmpty = true
              · rw [if_pos hsel]
                exact ih (attempt + 1) (t + 3) _ htrSel
              · rw [if_neg hsel]
                have htrScr := trace_append_guard stopAfter _ (t + 3, Stage.scrape)
                  htrSel (Bool.not_eq_true _ ▸ h3)
                by_cases h4 : stopFlag stopAfter (t + 4) = true
                · rw [if_pos h4]
                  exact mainFinish_guard stopAfter (t + 4) _ stoppedResult htrScr
                · rw [if_neg h4]
                  by_cases hscr : (env.scraped attempt).isEmpty = true
                  · rw [if_pos hscr]
                    exact ih (attempt + 1) (t + 4) _ htrScr
                  · rw [if_neg hscr]
                    have htrE := trace_append_guard stopAfter _
                      (t + 4, Stage.evaluate) htrScr (Bool.not_eq_true _ ▸ h4)
                    by_cases h5 : stopFlag stopAfter (t + 5) = true
                    · rw [if_pos h5]
                      exact mainFinish_guard stopAfter (t + 5) _ stoppedResult htrE
                    · rw [if_neg h5]
                      by_cases hd : env.decision attempt = "answer"
                      · rw [if_pos hd]
                        exact mainFinish_guard stopAfter (t + 6) _ env.answerText
                          (trace_append_guard stopAfter _ (t + 5, Stage.answer)
                            htrE (Bool.not_eq_true _ ▸ h5))
                      · rw [if_neg hd]
                        exact ih (attempt + 1) (t + 5) _ htrE

/-- Claim C2 (amended): in the main.py research loop the cancellation flag
is read in the while condition and after every stage, so no stage call —
search, page selection, scraping, evaluation or synthesis — is ever started
at a time when the flag is already set, and the final status reported is
`Search stopped` whenever the flag is set at loop exit and `Search
completed` otherwise, never an error status.  (The manager loop reads the
flag only at the attempt boundary and reports `completed` on its exit path
even after a stop; see the counterexample.) -/
theorem C2_main_loop_stop_within_stage :
    ∀ (env : LoopEnv) (stopAfter : Option Nat) (maxA : Nat),
      (∀ p ∈ (mainRun env stopAfter maxA).trace,
        stopFlag stopAfter p.1 = false) ∧
      ((mainRun env stopAfter maxA).finalStatus = "Search stopped" ∨
        (mainRun env stopAfter maxA).finalStatus = "Search completed") ∧
      (stopFlag stopAfter (mainRun env stopAfter maxA).endTime = true →
        (mainRun env stopAfter maxA).finalStatus = "Search stopped") := by
  intro env stopAfter maxA
  unfold mainRun
  exact mainGo_guard env stopAfter maxA 0 0 [] (by simp)

/-- Witness for C2: with the stop requested after the first stage call, the
concrete main.py run ends at the very next stage boundary with status
`Search stopped`. -/
theorem C2_main_loop_stop_within_stage_witness :
    stopFlag (some 1) (mainRun envDemo (some 1) 5).endTime = true ∧
    (mainRun envDemo (some 1) 5).finalStatus = "Search stopped" :=
  ⟨by decide,
   (C2_main_loop_stop_within_stage envDemo (some 1) 5).2.2 (by decide)⟩

/-- Counterexample to C2 as stated: in the manager research loop
(`search_engine_manager.AsyncSearchEngine.search_and_improve`) a stop
requested right after the formulate stage of attempt 1 does not prevent the
search stage (nor selection, scraping or evaluation) of that attempt from
starting — the flag is read only at the attempt boundary — and the loop's
exit path still emits the final status `completed` rather than ending on
`stopped`. -/
theorem C2_counterexample :
    (1, Stage.search) ∈ (managerRun envDemo (some 1) 5).trace ∧
    (3, Stage.scrape) ∈ (managerRun envDemo (some 1) 5).trace ∧
    stopFlag (some 1) 1 = true ∧
    (managerRun envDemo (some 1) 5).statuses = ["completed"] := by decide
